import Mathlib

/-
Verification of the MASR Conformer model orchestrator
(src/masr/model_utils/conformer/model.py).

The orchestrator wires black-box modules (encoder, bidirectional decoder,
CTC head, label-smoothing criterion) into a training forward pass and two
inference entry points.  We embed the orchestrator's control flow and
arithmetic faithfully; the black-box modules, whose code is not part of the
repository snapshot, appear as parameters (loss values, logit values,
per-frame encoder functions) or, where a claim depends on their documented
behaviour, as definitions modelled from the specification.

Scalars are embedded as rationals (ℚ): the Python code computes with
floats, but every claim under study is an exact algebraic identity of the
orchestrator's blending arithmetic, which we state over ℚ.
-/

namespace MASR

/-- Error taxonomy of the specification: `ConfigError` for invalid
construction parameters, `ShapeMismatchError` for disagreeing batch
dimensions.  In the Python source both are raised as assertion failures at
the lines the spec cites. -/
inductive MasrError where
  | configError
  | shapeMismatchError
deriving DecidableEq, Repr

/-- The state a constructed `ConformerModel` carries that is relevant to the
orchestrator logic: the configuration scalars stored by `__init__`
(model.py lines 30, 44-49). The encoder/decoder/CTC submodules are black
boxes and are passed to each method as parameters instead. -/
structure ConformerModel where
  input_dim : Nat
  vocab_size : Nat
  sos : Int
  eos : Int
  ignore_id : Int
  ctc_weight : ℚ
  reverse_weight : ℚ
deriving DecidableEq, Repr

/-- `ConformerModel.__init__` (model.py lines 15-56): validates
`0.0 <= ctc_weight <= 1.0` (line 28, an assertion; the spec's
`ConfigError`), then stores `sos = eos = vocab_size - 1` (lines 44-45) and
the remaining scalars. -/
def ConformerModel.init (input_dim vocab_size : Nat) (ctc_weight : ℚ)
    (ignore_id : Int) (reverse_weight : ℚ) : Except MasrError ConformerModel :=
  if 0 ≤ ctc_weight ∧ ctc_weight ≤ 1 then
    .ok ⟨input_dim, vocab_size, (vocab_size : Int) - 1, (vocab_size : Int) - 1,
         ignore_id, ctc_weight, reverse_weight⟩
  else
    .error .configError

/-- A bidirectional decoder instance over an abstract type `L` of decoder
logits: `fwd` is the forward-direction result, `rev` the reverse-direction
result, and `placeholder` the zero/placeholder value returned in place of
the reverse result when the reverse pass is skipped. -/
structure BiTransformerDecoder (L : Type) where
  fwd : L
  rev : L
  placeholder : L

/-- Modelled from the spec: the `BiTransformerDecoder` call
(src/masr/model_utils/conformer/decoder.py is not in the snapshot; spec
section 4.5): forward-direction decoding is computed always; reverse-direction
decoding is computed only when `reverse_weight > 0`, else a zero/placeholder
reverse result is returned to avoid wasted computation.  The returned `Bool`
is instrumentation recording whether the reverse decode path was invoked. -/
def BiTransformerDecoder.run {L : Type} (d : BiTransformerDecoder L)
    (reverse_weight : ℚ) : L × L × Bool :=
  if 0 < reverse_weight then (d.fwd, d.rev, true) else (d.fwd, d.placeholder, false)

/-- `ConformerModel._calc_att_loss` (model.py lines 102-141).  The
label-smoothing criterion `self.criterion_att` is a black box
`criterion : L → T → ℚ` over abstract logits `L` and targets `T`; the decoder
targets `ys_out_pad` / `r_ys_out_pad` built by `add_sos_eos` /
`reverse_pad_list` are abstract values of `T`.  The source runs the decoder
(line 126), computes `loss_att = criterion_att(decoder_out, ys_out_pad)`
(line 131), sets `r_loss_att = 0` and overwrites it with
`criterion_att(r_decoder_out, r_ys_out_pad)` only when `reverse_weight > 0`
(lines 132-134), and blends
`loss_att * (1 - reverse_weight) + r_loss_att * reverse_weight` (line 135).
The first component is the returned attention loss; the second is the
decoder's reverse-invocation instrumentation bit (the accuracy value of the
source, a black box, is omitted). -/
def ConformerModel.calc_att_loss {L T : Type} (m : ConformerModel)
    (criterion : L → T → ℚ) (d : BiTransformerDecoder L)
    (ys_out_pad r_ys_out_pad : T) : ℚ × Bool :=
  let res := d.run m.reverse_weight
  let decoder_out := res.1
  let r_decoder_out := res.2.1
  let rev_invoked := res.2.2
  let loss_att := criterion decoder_out ys_out_pad
  let r_loss_att : ℚ :=
    if 0 < m.reverse_weight then criterion r_decoder_out r_ys_out_pad else 0
  (loss_att * (1 - m.reverse_weight) + r_loss_att * m.reverse_weight, rev_invoked)

/-- The result record of `ConformerModel.forward` (model.py line 100):
`{"loss": loss, "loss_att": loss_att, "loss_ctc": loss_ctc}`, with `None`
embedded as `Option.none`. -/
structure LossBundle where
  loss : Option ℚ
  loss_att : Option ℚ
  loss_ctc : Option ℚ
deriving DecidableEq, Repr

/-- The shape information of the four forward inputs that the source's
shape assertions inspect (model.py lines 74-77): the leading (batch)
dimension of `speech`, `speech_lengths` and `text`, and the full shape of
`text_lengths` (whose rank is checked to be 1). -/
structure ForwardShapes where
  speech_batch : Nat
  speech_lengths_batch : Nat
  text_batch : Nat
  text_lengths_shape : List Nat
deriving DecidableEq, Repr

/-- The batch-dimension consistency check of model.py lines 76-77:
`speech.shape[0] == speech_lengths.shape[0] == text.shape[0] ==
text_lengths.shape[0]`. -/
def batchesAgree (s : ForwardShapes) : Prop :=
  s.speech_batch = s.speech_lengths_batch ∧
  s.speech_lengths_batch = s.text_batch ∧
  s.text_batch = s.text_lengths_shape.headD 0

instance (s : ForwardShapes) : Decidable (batchesAgree s) := by
  unfold batchesAgree; infer_instance

/-- `ConformerModel.forward` (model.py lines 58-100).  The checks come
first: `text_lengths.dim() == 1` (line 74) and batch-dimension consistency
(lines 76-77); both raise before any computation (the spec's
`ShapeMismatchError`).  The encoder and the two loss branches are black
boxes: the CTC branch's value is the parameter `ctcLossVal` and the
attention branch is `calc_att_loss` over the black-box criterion and
decoder.  The attention branch runs iff `ctc_weight != 1.0` (line 84), the
CTC branch iff `ctc_weight != 0.0` (line 91), and the total loss is blended
exactly as in lines 94-99. -/
def ConformerModel.forward {L T : Type} (m : ConformerModel)
    (criterion : L → T → ℚ) (d : BiTransformerDecoder L)
    (ys_out_pad r_ys_out_pad : T) (ctcLossVal : ℚ) (s : ForwardShapes) :
    Except MasrError LossBundle :=
  if s.text_lengths_shape.length ≠ 1 then .error .shapeMismatchError
  else if ¬ batchesAgree s then .error .shapeMismatchError
  else
    let loss_att : Option ℚ :=
      if m.ctc_weight ≠ 1 then
        some (m.calc_att_loss criterion d ys_out_pad r_ys_out_pad).1
      else none
    let loss_ctc : Option ℚ := if m.ctc_weight ≠ 0 then some ctcLossVal else none
    let loss : Option ℚ :=
      match loss_ctc, loss_att with
      | none, a => a
      | some c, none => some c
      | some c, some a => some (m.ctc_weight * c + (1 - m.ctc_weight) * a)
    .ok ⟨loss, loss_att, loss_ctc⟩

/-- Modelled from the spec: the full-sequence mode of the
`ConformerEncoder` (src/masr/model_utils/conformer/encoder.py is not in the
snapshot; spec section 4.4).  The encoder is abstracted to a per-position
causal computation: the output at position `t` is a black-box function `f`
of the input frames up to and including `t` (this captures both the
attention context and the causal convolution context that streaming
correctness relies on). -/
def encoderOutputs {A B : Type} (f : List A → B) (xs : List A) : List B :=
  (List.range xs.length).map (fun t => f (xs.take (t + 1)))

/-- Modelled from the spec: the incremental chunk mode
`ConformerEncoder.forward_chunk` (encoder.py is not in the snapshot; spec
section 4.4).  It processes one bounded-size chunk using the carried caches,
and `required_cache_size` bounds how much historical attention context is
retained: a fixed-size sliding window over past frames, older entries
beyond the window evicted, with a negative `required_cache_size` meaning
unlimited retention.  Both carried caches (attention and convolution) are
abstracted as retained input history and are threaded identically; the
chunk output at local position `t` is `f` applied to the retained history
followed by the chunk frames up to `t`.  `offset` tracks the global
position for positional-encoding continuity, which is implicit in the
history here. -/
def encoderForwardChunk {A B : Type} (f : List A → B) (xs : List A)
    (required_cache_size : Int) (att_cache cnn_cache : List A) :
    List B × List A × List A :=
  let hist := att_cache ++ xs
  let outs := (List.range xs.length).map (fun t => f (att_cache ++ xs.take (t + 1)))
  let new_cache :=
    if required_cache_size < 0 then hist
    else hist.drop (hist.length - required_cache_size.toNat)
  (outs, new_cache, new_cache)

/-- `ConformerModel.get_encoder_out` (model.py lines 143-158): runs the
encoder in full-sequence mode (`decoding_chunk_size=-1`,
`num_decoding_left_chunks=-1`) and applies the black-box per-position CTC
softmax `softmax` to each output frame. -/
def ConformerModel.get_encoder_out {A B C : Type} (m : ConformerModel)
    (f : List A → B) (softmax : B → C) (speech : List A) : List C :=
  (encoderOutputs f speech).map softmax

/-- `ConformerModel.get_encoder_out_chunk` (model.py lines 160-180): runs
`encoder.forward_chunk` on one chunk with the caller-supplied caches,
applies the per-position CTC softmax to the chunk output, and returns the
softmaxed output together with the two updated caches. -/
def ConformerModel.get_encoder_out_chunk {A B C : Type} (m : ConformerModel)
    (f : List A → B) (softmax : B → C) (speech : List A) (offset : Int)
    (required_cache_size : Int) (att_cache cnn_cache : List A) :
    List C × List A × List A :=
  let res := encoderForwardChunk f speech required_cache_size att_cache cnn_cache
  (res.1.map softmax, res.2.1, res.2.2)

/-- The streaming calling pattern of the claims: call
`get_encoder_out_chunk` once per chunk, threading each call's returned
attention/convolution caches into the next call and advancing `offset` by
the chunk length; collect the concatenated outputs. -/
def ConformerModel.runChunkSession {A B C : Type} (m : ConformerModel)
    (f : List A → B) (softmax : B → C) (required_cache_size : Int) :
    List (List A) → Int → List A → List A → List C
  | [], _, _, _ => []
  | c :: rest, offset, att, cnn =>
    let res := m.get_encoder_out_chunk f softmax c offset required_cache_size att cnn
    res.1 ++ m.runChunkSession f softmax required_cache_size rest
      (offset + (c.length : Int)) res.2.1 res.2.2

/-- The outputs of the causal encoder on `xs` when the frames `p` are
already-seen history: a recursive presentation used to relate chunked and
full-sequence encoding. -/
def outsFrom {A B : Type} (f : List A → B) : List A → List A → List B
  | _, [] => []
  | p, x :: xs => f (p ++ [x]) :: outsFrom f (p ++ [x]) xs

lemma range_map_take {A B : Type} (f : List A → B) :
    ∀ (xs p : List A),
      (List.range xs.length).map (fun t => f (p ++ xs.take (t + 1))) = outsFrom f p xs
  | [], _ => rfl
  | x :: xs, p => by
    rw [List.length_cons, List.range_succ_eq_map, List.map_cons, List.map_map]
    show _ :: _ = f (p ++ [x]) :: outsFrom f (p ++ [x]) xs
    rw [← range_map_take f xs (p ++ [x])]
    refine congrArg₂ _ (by simp) (List.map_congr_left ?_)
    intro t _
    simp only [Function.comp_apply, List.take_succ_cons, Nat.succ_eq_add_one]
    rw [List.append_cons]

lemma outsFrom_append {A B : Type} (f : List A → B) :
    ∀ (xs p ys : List A),
      outsFrom f p (xs ++ ys) = outsFrom f p xs ++ outsFrom f (p ++ xs) ys
  | [], p, ys => by simp [outsFrom]
  | x :: xs, p, ys => by
    show f (p ++ [x]) :: outsFrom f (p ++ [x]) (xs ++ ys) =
      f (p ++ [x]) :: (outsFrom f (p ++ [x]) xs ++ outsFrom f (p ++ x :: xs) ys)
    rw [outsFrom_append f xs (p ++ [x]) ys, ← List.append_cons]

lemma encoderOutputs_eq_outsFrom {A B : Type} (f : List A → B) (xs : List A) :
    encoderOutputs f xs = outsFrom f [] xs := by
  rw [← range_map_take f xs []]
  simp [encoderOutputs]

lemma runChunkSession_full_cache {A B C : Type} (m : ConformerModel)
    (f : List A → B) (softmax : B → C) (rcs : Int) :
    ∀ (chunks : List (List A)) (p : List A) (offset : Int),
      (rcs < 0 ∨ ((p.length : Int) + (chunks.flatten.length : Int) ≤ rcs)) →
      m.runChunkSession f softmax rcs chunks offset p p =
        (outsFrom f p chunks.flatten).map softmax
  | [], p, offset, _ => by simp [ConformerModel.runChunkSession, outsFrom]
  | c :: rest, p, offset, h => by
    have hcache :
        (if rcs < 0 then p ++ c
         else (p ++ c).drop ((p ++ c).length - rcs.toNat)) = p ++ c := by
      rcases h with h | h
      · rw [if_pos h]
      · have hge : ¬ rcs < 0 := by
          simp only [List.flatten_cons, List.length_append, List.length_cons] at h ⊢
          omega
        rw [if_neg hge]
        have hlen : (p ++ c).length ≤ rcs.toNat := by
          simp only [List.flatten_cons, List.length_append] at h ⊢
          omega
        rw [Nat.sub_eq_zero_of_le hlen, List.drop_zero]
    have hrest : rcs < 0 ∨
        (((p ++ c).length : Int) + (rest.flatten.length : Int) ≤ rcs) := by
      rcases h with h | h
      · exact Or.inl h
      · refine Or.inr ?_
        simp only [List.flatten_cons, List.length_append] at h ⊢
        push_cast at h ⊢
        linarith
    show (((List.range c.length).map
        (fun t => f (p ++ c.take (t + 1)))).map softmax) ++
        m.runChunkSession f softmax rcs rest (offset + (c.length : Int))
          (if rcs < 0 then p ++ c
           else (p ++ c).drop ((p ++ c).length - rcs.toNat))
          (if rcs < 0 then p ++ c
           else (p ++ c).drop ((p ++ c).length - rcs.toNat)) = _
    rw [hcache, range_map_take f c p,
        runChunkSession_full_cache m f softmax rcs rest (p ++ c)
          (offset + (c.length : Int)) hrest]
    rw [List.flatten_cons, outsFrom_append f c p rest.flatten, List.map_append]

lemma calc_att_loss_blend_eval {L T : Type} (m : ConformerModel)
    (criterion : L → T → ℚ) (d : BiTransformerDecoder L) (y r : T)
    (hrw : 0 ≤ m.reverse_weight) :
    (m.calc_att_loss criterion d y r).1 =
      (1 - m.reverse_weight) * criterion d.fwd y +
        m.reverse_weight * criterion d.rev r := by
  unfold ConformerModel.calc_att_loss BiTransformerDecoder.run
  rcases lt_or_eq_of_le hrw with h | h
  · simp only [if_pos h]
    ring
  · simp only [← h, lt_irrefl, if_false]
    ring

/-- Claim C8: a `ctc_weight` outside the closed interval [0,1] is rejected
at construction time with a `ConfigError`, and every `ctc_weight` inside
[0,1] is accepted by that validation (model.py line 28). -/
theorem init_ctc_weight_validation (input_dim vocab_size : Nat) (w : ℚ)
    (ignore_id : Int) (rw : ℚ) :
    (ConformerModel.init input_dim vocab_size w ignore_id rw =
        .error .configError ↔ ¬ (0 ≤ w ∧ w ≤ 1)) ∧
    ((∃ mdl, ConformerModel.init input_dim vocab_size w ignore_id rw = .ok mdl) ↔
        (0 ≤ w ∧ w ≤ 1)) := by
  unfold ConformerModel.init
  by_cases h : 0 ≤ w ∧ w ≤ 1 <;> simp [h]

/-- Claim C9: in every constructed model the start-of-sequence and
end-of-sequence marker ids are equal, both being `vocab_size - 1`
(model.py lines 44-45). -/
theorem constructed_sos_eq_eos (input_dim vocab_size : Nat) (w : ℚ)
    (ignore_id : Int) (rw : ℚ) (mdl : ConformerModel)
    (h : ConformerModel.init input_dim vocab_size w ignore_id rw = .ok mdl) :
    mdl.sos = mdl.eos ∧ mdl.sos = (vocab_size : Int) - 1 := by
  unfold ConformerModel.init at h
  by_cases hw : 0 ≤ w ∧ w ≤ 1
  · rw [if_pos hw] at h
    injection h with h
    subst h
    exact ⟨rfl, rfl⟩
  · rw [if_neg hw] at h
    cases h

theorem constructed_sos_eq_eos_w :
    (ConformerModel.init 80 100 1 (-1) 0 =
        .ok ⟨80, 100, 99, 99, -1, 1, 0⟩) ∧
    ((⟨80, 100, 99, 99, -1, 1, 0⟩ : ConformerModel).sos =
        (⟨80, 100, 99, 99, -1, 1, 0⟩ : ConformerModel).eos ∧
      (⟨80, 100, 99, 99, -1, 1, 0⟩ : ConformerModel).sos = (100 : Int) - 1) := by
  have hinit : ConformerModel.init 80 100 1 (-1) 0 =
      .ok ⟨80, 100, 99, 99, -1, 1, 0⟩ := by
    norm_num [ConformerModel.init]
  exact ⟨hinit, constructed_sos_eq_eos 80 100 1 (-1) 0 _ hinit⟩

/-- Claim C5: when `reverse_weight = 0`, the attention loss returned by
`_calc_att_loss` equals the forward-only loss exactly, and the reverse
decode path is not invoked (model.py lines 126-135 together with the
spec-modelled decoder skip of section 4.5). -/
theorem att_loss_reverse_weight_zero {L T : Type} (m : ConformerModel)
    (criterion : L → T → ℚ) (d : BiTransformerDecoder L) (y r : T)
    (h : m.reverse_weight = 0) :
    m.calc_att_loss criterion d y r = (criterion d.fwd y, false) := by
  unfold ConformerModel.calc_att_loss BiTransformerDecoder.run
  simp [h]

theorem att_loss_reverse_weight_zero_w :
    (⟨80, 100, 99, 99, -1, 1/2, 0⟩ : ConformerModel).reverse_weight = 0 ∧
    (⟨80, 100, 99, 99, -1, 1/2, 0⟩ : ConformerModel).calc_att_loss
        (fun l t => l + t) ⟨3, 5, 7⟩ (11 : ℚ) (13 : ℚ) = (14, false) := by
  refine ⟨rfl, ?_⟩
  rw [att_loss_reverse_weight_zero (⟨80, 100, 99, 99, -1, 1/2, 0⟩ : ConformerModel)
    (fun l t : ℚ => l + t) ⟨3, 5, 7⟩ (11 : ℚ) (13 : ℚ) rfl]
  norm_num

/-- Claim C3: with `ctc_weight = 1.0` the attention-decoder branch is
skipped entirely (`loss_att` is `None`, not merely zero-weighted) and the
returned total loss is exactly the CTC loss (model.py lines 83-99). -/
theorem forward_ctc_weight_one {L T : Type} (m : ConformerModel)
    (criterion : L → T → ℚ) (d : BiTransformerDecoder L) (y r : T)
    (ctcLossVal : ℚ) (s : ForwardShapes)
    (hdim : s.text_lengths_shape.length = 1) (hb : batchesAgree s)
    (hw : m.ctc_weight = 1) :
    m.forward criterion d y r ctcLossVal s =
      .ok ⟨some ctcLossVal, none, some ctcLossVal⟩ := by
  unfold ConformerModel.forward
  simp [hdim, hb, hw]

theorem forward_ctc_weight_one_w :
    ((([2] : List Nat).length = 1) ∧ batchesAgree ⟨2, 2, 2, [2]⟩ ∧
      (⟨80, 100, 99, 99, -1, 1, 0⟩ : ConformerModel).ctc_weight = 1) ∧
    (⟨80, 100, 99, 99, -1, 1, 0⟩ : ConformerModel).forward
        (fun l t => l + t) ⟨3, 5, 7⟩ (11 : ℚ) (13 : ℚ) 17 ⟨2, 2, 2, [2]⟩ =
      .ok ⟨some 17, none, some 17⟩ :=
  ⟨⟨rfl, by decide, rfl⟩,
    forward_ctc_weight_one (⟨80, 100, 99, 99, -1, 1, 0⟩ : ConformerModel)
      (fun l t : ℚ => l + t) ⟨3, 5, 7⟩ (11 : ℚ) (13 : ℚ) 17 ⟨2, 2, 2, [2]⟩
      rfl (by decide) rfl⟩

/-- Claim C4: with `ctc_weight = 0.0` the CTC branch is skipped
(`loss_ctc` is `None`) and the returned total loss is exactly the
attention loss (model.py lines 83-99). -/
theorem forward_ctc_weight_zero {L T : Type} (m : ConformerModel)
    (criterion : L → T → ℚ) (d : BiTransformerDecoder L) (y r : T)
    (ctcLossVal : ℚ) (s : ForwardShapes)
    (hdim : s.text_lengths_shape.length = 1) (hb : batchesAgree s)
    (hw : m.ctc_weight = 0) :
    m.forward criterion d y r ctcLossVal s =
      .ok ⟨some (m.calc_att_loss criterion d y r).1,
           some (m.calc_att_loss criterion d y r).1, none⟩ := by
  unfold ConformerModel.forward
  simp [hdim, hb, hw]

theorem forward_ctc_weight_zero_w :
    ((([2] : List Nat).length = 1) ∧ batchesAgree ⟨2, 2, 2, [2]⟩ ∧
      (⟨80, 100, 99, 99, -1, 0, 0⟩ : ConformerModel).ctc_weight = 0) ∧
    (⟨80, 100, 99, 99, -1, 0, 0⟩ : ConformerModel).forward
        (fun l t => l + t) ⟨3, 5, 7⟩ (11 : ℚ) (13 : ℚ) 17 ⟨2, 2, 2, [2]⟩ =
      .ok ⟨some 14, some 14, none⟩ :=
  ⟨⟨rfl, by decide, rfl⟩,
    (forward_ctc_weight_zero (⟨80, 100, 99, 99, -1, 0, 0⟩ : ConformerModel)
      (fun l t : ℚ => l + t) ⟨3, 5, 7⟩ (11 : ℚ) (13 : ℚ) 17 ⟨2, 2, 2, [2]⟩
      rfl (by decide) rfl).trans (congrArg Except.ok (by
        norm_num [ConformerModel.calc_att_loss, BiTransformerDecoder.run]))⟩

lemma forward_ok_elim {L T : Type} {m : ConformerModel} {criterion : L → T → ℚ}
    {d : BiTransformerDecoder L} {y r : T} {ctcv : ℚ} {s : ForwardShapes}
    {b : LossBundle}
    (hok : m.forward criterion d y r ctcv s = .ok b) :
    b.loss_att =
      (if m.ctc_weight ≠ 1 then some (m.calc_att_loss criterion d y r).1
       else none) ∧
    b.loss_ctc = (if m.ctc_weight ≠ 0 then some ctcv else none) ∧
    b.loss = (match b.loss_ctc, b.loss_att with
              | none, a => a
              | some c, none => some c
              | some c, some a =>
                some (m.ctc_weight * c + (1 - m.ctc_weight) * a)) := by
  unfold ConformerModel.forward at hok
  by_cases hdim : s.text_lengths_shape.length ≠ 1
  · rw [if_pos hdim] at hok
    cases hok
  · rw [if_neg hdim] at hok
    by_cases hb : batchesAgree s
    · rw [if_neg (not_not_intro hb)] at hok
      injection hok with hok
      subst hok
      exact ⟨rfl, rfl, rfl⟩
    · rw [if_pos hb] at hok
      cases hok

/-- Claim C1: whenever a forward training call returns, if both branches
are active (`0 < ctc_weight < 1`) the total loss is
`ctc_weight * ctc_loss + (1 - ctc_weight) * attention_loss`; when exactly
one branch is active (`ctc_weight = 1`, only CTC; `ctc_weight = 0`, only
attention) the total loss is that branch's loss alone
(model.py lines 83-100). -/
theorem forward_total_loss_blend {L T : Type} (m : ConformerModel)
    (criterion : L → T → ℚ) (d : BiTransformerDecoder L) (y r : T)
    (ctcv : ℚ) (s : ForwardShapes) (b : LossBundle)
    (hok : m.forward criterion d y r ctcv s = .ok b) :
    ((0 < m.ctc_weight ∧ m.ctc_weight < 1) →
      b.loss = some (m.ctc_weight * ctcv +
        (1 - m.ctc_weight) * (m.calc_att_loss criterion d y r).1)) ∧
    (m.ctc_weight = 1 → b.loss = some ctcv) ∧
    (m.ctc_weight = 0 →
      b.loss = some (m.calc_att_loss criterion d y r).1) := by
  obtain ⟨hatt, hctc, hloss⟩ := forward_ok_elim hok
  refine ⟨?_, ?_, ?_⟩
  · rintro ⟨h0, h1⟩
    have hw0 : m.ctc_weight ≠ 0 := ne_of_gt h0
    have hw1 : m.ctc_weight ≠ 1 := ne_of_lt h1
    rw [if_pos hw0] at hctc
    rw [if_pos hw1] at hatt
    rw [hloss, hctc, hatt]
  · intro hw
    have hw0 : m.ctc_weight ≠ 0 := by rw [hw]; exact one_ne_zero
    rw [if_pos hw0] at hctc
    rw [if_neg (not_not_intro hw)] at hatt
    rw [hloss, hctc, hatt]
  · intro hw
    have hw1 : m.ctc_weight ≠ 1 := by rw [hw]; exact zero_ne_one
    rw [if_neg (not_not_intro hw)] at hctc
    rw [if_pos hw1] at hatt
    rw [hloss, hctc, hatt]

/-- Claim C6: whenever a forward training call with `ctc_weight < 1.0`
returns, the attention loss in the result is the convex blend
`(1 - reverse_weight) * forward_loss + reverse_weight * reverse_loss`
of the forward-direction and reverse-direction criterion losses
(model.py lines 120-135, with the nonnegative `reverse_weight` domain of
the spec's configuration contract). -/
theorem forward_att_loss_is_blend {L T : Type} (m : ConformerModel)
    (criterion : L → T → ℚ) (d : BiTransformerDecoder L) (y r : T)
    (ctcv : ℚ) (s : ForwardShapes) (b : LossBundle)
    (hok : m.forward criterion d y r ctcv s = .ok b)
    (hcw : m.ctc_weight < 1) (hrw : 0 ≤ m.reverse_weight) :
    b.loss_att = some ((1 - m.reverse_weight) * criterion d.fwd y +
      m.reverse_weight * criterion d.rev r) := by
  obtain ⟨hatt, -, -⟩ := forward_ok_elim hok
  rw [if_pos (ne_of_lt hcw)] at hatt
  rw [hatt, calc_att_loss_blend_eval m criterion d y r hrw]

/-- Claim C7: with rank-1 `text_lengths`, a forward training call fails
with a `ShapeMismatchError` exactly when the four inputs do not all share
the same batch dimension; when they agree no such error is raised
(model.py lines 74-77). -/
theorem forward_shape_validation {L T : Type} (m : ConformerModel)
    (criterion : L → T → ℚ) (d : BiTransformerDecoder L) (y r : T)
    (ctcv : ℚ) (s : ForwardShapes)
    (hdim : s.text_lengths_shape.length = 1) :
    m.forward criterion d y r ctcv s = .error .shapeMismatchError ↔
      ¬ batchesAgree s := by
  unfold ConformerModel.forward
  rw [if_neg (by simp [hdim])]
  by_cases hb : batchesAgree s
  · rw [if_neg (not_not_intro hb)]
    simp [hb]
  · rw [if_pos hb]
    simp [hb]

/-- Claim C10: whenever a forward training call on a model with
`ctc_weight` in [0,1] returns, at least one of the two loss branches was
computed and the total loss is never `None` (model.py lines 83-100: both
branches absent would need `ctc_weight = 1` and `ctc_weight = 0` at
once). -/
theorem forward_total_loss_present {L T : Type} (m : ConformerModel)
    (criterion : L → T → ℚ) (d : BiTransformerDecoder L) (y r : T)
    (ctcv : ℚ) (s : ForwardShapes) (b : LossBundle)
    (hok : m.forward criterion d y r ctcv s = .ok b)
    (h0 : 0 ≤ m.ctc_weight) (h1 : m.ctc_weight ≤ 1) :
    b.loss ≠ none ∧ (b.loss_att ≠ none ∨ b.loss_ctc ≠ none) := by
  obtain ⟨hatt, hctc, hloss⟩ := forward_ok_elim hok
  by_cases hw0 : m.ctc_weight = 0
  · have hw1 : m.ctc_weight ≠ 1 := by rw [hw0]; exact zero_ne_one
    rw [if_neg (not_not_intro hw0)] at hctc
    rw [if_pos hw1] at hatt
    rw [hloss, hctc, hatt]
    exact ⟨by simp, Or.inl (by simp)⟩
  · rw [if_pos hw0] at hctc
    rw [hloss, hctc]
    by_cases hw1 : m.ctc_weight = 1
    · rw [if_neg (not_not_intro hw1)] at hatt
      rw [hatt]
      exact ⟨by simp, Or.inr (by simp [hctc])⟩
    · rw [if_pos hw1] at hatt
      rw [hatt]
      exact ⟨by simp, Or.inr (by simp [hctc])⟩

theorem forward_total_loss_blend_w :
    ((⟨80, 100, 99, 99, -1, 1/2, 0⟩ : ConformerModel).forward
        (fun l t : ℚ => l + t) ⟨3, 5, 7⟩ (11 : ℚ) (13 : ℚ) 17 ⟨2, 2, 2, [2]⟩ =
      .ok ⟨some (31/2), some 14, some 17⟩) ∧
    (⟨some (31/2), some 14, some 17⟩ : LossBundle).loss =
      some ((1/2 : ℚ) * 17 + (1 - (1/2 : ℚ)) *
        ((⟨80, 100, 99, 99, -1, 1/2, 0⟩ : ConformerModel).calc_att_loss
          (fun l t : ℚ => l + t) ⟨3, 5, 7⟩ (11 : ℚ) (13 : ℚ)).1) := by
  have hok : (⟨80, 100, 99, 99, -1, 1/2, 0⟩ : ConformerModel).forward
      (fun l t : ℚ => l + t) ⟨3, 5, 7⟩ (11 : ℚ) (13 : ℚ) 17 ⟨2, 2, 2, [2]⟩ =
      .ok ⟨some (31/2), some 14, some 17⟩ := by
    norm_num [ConformerModel.forward, ConformerModel.calc_att_loss,
      BiTransformerDecoder.run, batchesAgree]
  exact ⟨hok, (forward_total_loss_blend _ _ _ _ _ _ _ _ hok).1
    ⟨by norm_num, by norm_num⟩⟩

theorem forward_att_loss_is_blend_w :
    ((⟨80, 100, 99, 99, -1, 1/2, 1/2⟩ : ConformerModel).forward
        (fun l t : ℚ => l + t) ⟨3, 5, 7⟩ (11 : ℚ) (13 : ℚ) 17 ⟨2, 2, 2, [2]⟩ =
      .ok ⟨some (33/2), some 16, some 17⟩) ∧
    ((⟨80, 100, 99, 99, -1, 1/2, 1/2⟩ : ConformerModel).ctc_weight < 1 ∧
      0 ≤ (⟨80, 100, 99, 99, -1, 1/2, 1/2⟩ : ConformerModel).reverse_weight) ∧
    (⟨some (33/2), some 16, some 17⟩ : LossBundle).loss_att =
      some ((1 - (1/2 : ℚ)) * (3 + 11) + (1/2 : ℚ) * (5 + 13)) := by
  have hok : (⟨80, 100, 99, 99, -1, 1/2, 1/2⟩ : ConformerModel).forward
      (fun l t : ℚ => l + t) ⟨3, 5, 7⟩ (11 : ℚ) (13 : ℚ) 17 ⟨2, 2, 2, [2]⟩ =
      .ok ⟨some (33/2), some 16, some 17⟩ := by
    norm_num [ConformerModel.forward, ConformerModel.calc_att_loss,
      BiTransformerDecoder.run, batchesAgree]
  exact ⟨hok, ⟨by norm_num, by norm_num⟩,
    forward_att_loss_is_blend _ _ _ _ _ _ _ _ hok (by norm_num) (by norm_num)⟩

theorem forward_shape_validation_w :
    (([2] : List Nat).length = 1) ∧
    ((⟨80, 100, 99, 99, -1, 1/2, 0⟩ : ConformerModel).forward
        (fun l t : ℚ => l + t) ⟨3, 5, 7⟩ (11 : ℚ) (13 : ℚ) 17 ⟨2, 3, 2, [2]⟩ =
        .error .shapeMismatchError ↔ ¬ batchesAgree ⟨2, 3, 2, [2]⟩) :=
  ⟨rfl, forward_shape_validation (⟨80, 100, 99, 99, -1, 1/2, 0⟩ : ConformerModel)
    (fun l t : ℚ => l + t) ⟨3, 5, 7⟩ (11 : ℚ) (13 : ℚ) 17 ⟨2, 3, 2, [2]⟩ rfl⟩

theorem forward_total_loss_present_w :
    ((⟨80, 100, 99, 99, -1, 1/2, 0⟩ : ConformerModel).forward
        (fun l t : ℚ => l * t) ⟨3, 5, 7⟩ (11 : ℚ) (13 : ℚ) 19 ⟨2, 2, 2, [2]⟩ =
      .ok ⟨some 26, some 33, some 19⟩) ∧
    (0 ≤ (⟨80, 100, 99, 99, -1, 1/2, 0⟩ : ConformerModel).ctc_weight ∧
      (⟨80, 100, 99, 99, -1, 1/2, 0⟩ : ConformerModel).ctc_weight ≤ 1) ∧
    ((⟨some 26, some 33, some 19⟩ : LossBundle).loss ≠ none ∧
      ((⟨some 26, some 33, some 19⟩ : LossBundle).loss_att ≠ none ∨
        (⟨some 26, some 33, some 19⟩ : LossBundle).loss_ctc ≠ none)) := by
  have hok : (⟨80, 100, 99, 99, -1, 1/2, 0⟩ : ConformerModel).forward
      (fun l t : ℚ => l * t) ⟨3, 5, 7⟩ (11 : ℚ) (13 : ℚ) 19 ⟨2, 2, 2, [2]⟩ =
      .ok ⟨some 26, some 33, some 19⟩ := by
    norm_num [ConformerModel.forward, ConformerModel.calc_att_loss,
      BiTransformerDecoder.run, batchesAgree]
  exact ⟨hok, ⟨by norm_num, by norm_num⟩,
    forward_total_loss_present _ _ _ _ _ _ _ _ hok (by norm_num) (by norm_num)⟩

/-- Claim C2: splitting an input sequence into chunks and calling the
incremental chunk encoder once per chunk — caches initialized to the
zero-sized value on the first call and each call's returned caches passed
to the next — produces output equal to the full-sequence encoder applied
to the concatenated input, provided `required_cache_size` retains the full
history (negative, meaning unlimited, or at least the total input length).
The wrappers `get_encoder_out` / `get_encoder_out_chunk` are from
model.py lines 143-180; the encoder internals are modelled from the spec
(section 4.4). -/
theorem chunked_encoding_matches_full {A B C : Type} (m : ConformerModel)
    (f : List A → B) (softmax : B → C) (rcs : Int) (chunks : List (List A))
    (h : rcs < 0 ∨ (chunks.flatten.length : Int) ≤ rcs) :
    m.runChunkSession f softmax rcs chunks 0 ([] : List A) ([] : List A) =
      m.get_encoder_out f softmax chunks.flatten := by
  rw [runChunkSession_full_cache m f softmax rcs chunks [] 0 (by simpa using h)]
  unfold ConformerModel.get_encoder_out
  rw [encoderOutputs_eq_outsFrom]

theorem chunked_encoding_matches_full_w :
    ((-1 : Int) < 0 ∨
      ((([[1, 2], [3]] : List (List ℚ)).flatten.length : Int) ≤ -1)) ∧
    (⟨80, 100, 99, 99, -1, 1/2, 0⟩ : ConformerModel).runChunkSession
        (fun xs : List ℚ => xs.sum) (fun q : ℚ => q + 1) (-1)
        [[1, 2], [3]] 0 [] [] =
      (⟨80, 100, 99, 99, -1, 1/2, 0⟩ : ConformerModel).get_encoder_out
        (fun xs : List ℚ => xs.sum) (fun q : ℚ => q + 1)
        ([[1, 2], [3]] : List (List ℚ)).flatten :=
  ⟨Or.inl (by decide),
    chunked_encoding_matches_full (⟨80, 100, 99, 99, -1, 1/2, 0⟩ : ConformerModel)
      (fun xs : List ℚ => xs.sum) (fun q : ℚ => q + 1) (-1) [[1, 2], [3]]
      (Or.inl (by decide))⟩

end MASR
